import Mathlib

/-!
Verification of the semantic-memory MCP server (src/index.js) against its
natural-language specification.

The program keeps two SQLite tables: `memories` (one row per caller-chosen
string id) and `user_bio` (a singleton row).  We embed the relevant tool
handlers shallowly:

* the `memories` table is a `List Memory` in table-scan order (rows are
  appended on INSERT, updated in place on UPDATE, which matches what
  `SELECT * FROM memories` returns for this insert/update-only workload);
* the embedding model (`generateEmbedding`, an external capability) is a
  parameter `e : String → List ℚ`, and the floating-point
  `cosineSimilarity` used inside `search_memory` is abstracted as a score
  parameter `sim : List ℚ → List ℚ → ℚ`; every theorem about the search
  pipeline is proved for all such parameters, hence holds for the actual
  composite.  The mathematical content of `cosineSimilarity` itself is
  modelled separately over `ℝ`;
* JavaScript's stable `Array.prototype.sort` with comparator
  `(a, b) => b.similarity - a.similarity` is `List.mergeSort` with the
  Boolean relation `b.similarity ≤ a.similarity` (stable, same order);
* `Array.prototype.slice(0, n)` with a possibly negative `n` is
  `jsSliceLen`, following the ECMAScript clamping rules;
* timestamps (`new Date().toISOString()`) are opaque strings passed in as
  a `now` argument.
-/

/-- A row of the `memories` table: `id TEXT PRIMARY KEY, text, embedding,
metadata, created_at, updated_at`.  The `embedding` column stores the
serialized vector; we keep it as the vector itself since the code always
round-trips it through JSON. -/
structure Memory where
  id : String
  text : String
  embedding : List ℚ
  metadata : String
  created_at : String
  updated_at : String
deriving DecidableEq, Repr

/-- The `memories` table in table-scan order. -/
abbrev Store := List Memory

/-- The effect of `save_memory`'s `UPDATE ... WHERE id = ?` statement on a
single row: rows with the id get the new text, embedding, metadata and
`updated_at` (keeping `created_at`); other rows are untouched. -/
def saveUpdate (e : String → List ℚ) (id text metadata now : String)
    (m : Memory) : Memory :=
  if m.id = id then
    { m with text := text, embedding := e text,
             metadata := metadata, updated_at := now }
  else m

/-- Handler for the `save_memory` tool (src/index.js lines 260-315):
look up `SELECT created_at FROM memories WHERE id = ?`; if a row exists,
`UPDATE` its text/embedding/metadata/updated_at in place; otherwise
`INSERT` a fresh row with `created_at = updated_at = now`.  `e` stands for
`generateEmbedding`. -/
def save_memory (e : String → List ℚ) (s : Store)
    (id text metadata now : String) : Store :=
  match s.find? (fun m => decide (m.id = id)) with
  | some _ => s.map (saveUpdate e id text metadata now)
  | none =>
      s ++ [{ id := id, text := text, embedding := e text,
              metadata := metadata, created_at := now, updated_at := now }]

/-- Response of the `get_memory` tool: `success:false` when no row has the
id, otherwise `success:true` together with the row. -/
structure GetResponse where
  success : Bool
  memory : Option Memory
deriving DecidableEq, Repr

/-- Handler for the `get_memory` tool (src/index.js lines 370-406):
`SELECT * FROM memories WHERE id = ?` and report found / not found. -/
def get_memory (s : Store) (id : String) : GetResponse :=
  match s.find? (fun m => decide (m.id = id)) with
  | none => { success := false, memory := none }
  | some m => { success := true, memory := some m }

/-- One element of the `results` array built by `search_memory`. -/
structure SearchResult where
  id : String
  text : String
  metadata : String
  similarity : ℚ
  created_at : String
  updated_at : String
deriving DecidableEq, Repr

/-- Response shape of the `search_memory` tool: `success`, the `results`
array, and the optional `message` field (present only in the empty-store
branch). -/
structure SearchResponse where
  success : Bool
  results : List SearchResult
  message : Option String
deriving DecidableEq, Repr

/-- `Array.prototype.slice(0, endIdx).length` for an array of length
`len`: a negative end index counts from the end of the array and clamps
at 0, a nonnegative one clamps at `len` (ECMAScript §23.1.3.28). -/
def jsSliceLen (len : Nat) (endIdx : Int) : Nat :=
  if endIdx < 0 then ((len : Int) + endIdx).toNat else min endIdx.toNat len

/-- The per-row result object built inside `search_memory`'s `.map`
callback; `qe` is the query embedding. -/
def searchResultOf (sim : List ℚ → List ℚ → ℚ) (qe : List ℚ)
    (m : Memory) : SearchResult :=
  { id := m.id, text := m.text, metadata := m.metadata,
    similarity := sim qe m.embedding,
    created_at := m.created_at, updated_at := m.updated_at }

/-- The `.map ... .filter` stage of `search_memory`: score every stored
row against the query embedding and keep those with
`similarity >= threshold`. -/
def searchCandidates (e : String → List ℚ) (sim : List ℚ → List ℚ → ℚ)
    (s : Store) (query : String) (threshold : ℚ) : List SearchResult :=
  (s.map (searchResultOf sim (e query))).filter
    (fun r => decide (threshold ≤ r.similarity))

/-- The Boolean order used to model the comparator
`(a, b) => b.similarity - a.similarity`: `a` may precede `b` exactly when
the comparator is `≤ 0`. -/
def resultLE (a b : SearchResult) : Bool :=
  decide (b.similarity ≤ a.similarity)

/-- The `.sort` stage of `search_memory`: JavaScript's sort is stable, so
it is `mergeSort` under `resultLE`. -/
def searchSorted (e : String → List ℚ) (sim : List ℚ → List ℚ → ℚ)
    (s : Store) (query : String) (threshold : ℚ) : List SearchResult :=
  (searchCandidates e sim s query threshold).mergeSort resultLE

/-- Handler for the `search_memory` tool (src/index.js lines 317-368):
if the table is empty, answer `success:true` with `results: []` and the
message "No memories stored yet"; otherwise map / filter / sort / slice
as in the source.  `n_results` and `threshold` are used exactly as
supplied — the handler performs no validation. -/
def search_memory (e : String → List ℚ) (sim : List ℚ → List ℚ → ℚ)
    (s : Store) (query : String) (n_results : Int) (threshold : ℚ) :
    SearchResponse :=
  if s.length = 0 then
    { success := true, results := [], message := some "No memories stored yet" }
  else
    let sorted := searchSorted e sim s query threshold
    { success := true,
      results := sorted.take (jsSliceLen sorted.length n_results),
      message := none }

/-!
## Concrete sample data for evaluations

`memA` and `memB` hold the same embedding vector, so the actual
`cosineSimilarity` necessarily assigns them the same score against any
query embedding; the abstract score function `simConst` reflects exactly
that situation.  `memA` was inserted first (it precedes `memB` in
table-scan order) but was updated earlier.
-/

def memA : Memory :=
  { id := "a", text := "alpha", embedding := [1], metadata := "{}",
    created_at := "2025-01-01T00:00:00Z", updated_at := "2025-01-01T00:00:00Z" }

def memB : Memory :=
  { id := "b", text := "beta", embedding := [1], metadata := "{}",
    created_at := "2025-01-02T00:00:00Z", updated_at := "2025-01-02T00:00:00Z" }

def embedConst : String → List ℚ := fun _ => [1]

def simConst : List ℚ → List ℚ → ℚ := fun _ _ => 1

/-!
## The similarity engine

`cosineSimilarity` (src/index.js lines 55-60) is pure floating-point
arithmetic; we model it over the real numbers, which is the idealisation
the specification itself appeals to ("within floating-point tolerance").
The JavaScript `reduce` over `a`'s indices with `b[i]` coincides with the
zip of the two lists whenever they have equal length, which is the
precondition stated in the spec.
-/

/-- The `dotProduct` accumulator of `cosineSimilarity`:
`a.reduce((sum, val, i) => sum + val * b[i], 0)`. -/
noncomputable def dotProduct (a b : List ℝ) : ℝ :=
  (List.zipWith (fun x y => x * y) a b).sum

/-- `cosineSimilarity(a, b) = dot(a,b) / (sqrt(dot(a,a)) * sqrt(dot(b,b)))`
(src/index.js lines 55-60). -/
noncomputable def cosineSimilarity (a b : List ℝ) : ℝ :=
  dotProduct a b / (Real.sqrt (dotProduct a a) * Real.sqrt (dotProduct b b))

/-!
## The biography store

The `user_bio` table holds at most one row (`id = 1`).  A column of the
row is `Option String` (SQLite TEXT, nullable); the whole table state is
`Option BioRow`.  A JSON value arriving in a tool argument is `JSVal`
(string / array-of-strings / null), and an argument object field is
`Option JSVal` with `none` for an omitted (undefined) field.
-/

/-- The singleton `user_bio` row. -/
structure BioRow where
  nombre : Option String
  ocupacion : Option String
  ubicacion : Option String
  tecnologias : Option String
  herramientas : Option String
  idiomas : Option String
  timezone : Option String
  mascotas : Option String
  created_at : String
  updated_at : String
deriving DecidableEq, Repr

/-- A JSON value supplied for a biography field. -/
inductive JSVal where
  | null : JSVal
  | str : String → JSVal
  | arr : List String → JSVal
deriving DecidableEq, Repr

/-- The `set_user_bio` argument object: each field is either omitted
(`none`) or supplied with a JSON value. -/
structure BioInput where
  nombre : Option JSVal := none
  ocupacion : Option JSVal := none
  ubicacion : Option JSVal := none
  tecnologias : Option JSVal := none
  herramientas : Option JSVal := none
  idiomas : Option JSVal := none
  timezone : Option JSVal := none
  mascotas : Option JSVal := none
deriving DecidableEq, Repr

/-- Character-level escaping of `JSON.stringify` for the string contents
we model (backslash and double quote). -/
def jsonEscapeChar (c : Char) : String :=
  if c = '\\' then "\\\\" else if c = '\"' then "\\\"" else String.singleton c

/-- Escape a string as `JSON.stringify` does. -/
def jsonEscape (s : String) : String :=
  String.join (s.data.map jsonEscapeChar)

/-- `JSON.stringify` on the JSON values that can reach it here. -/
def jsonStringify : JSVal → String
  | JSVal.null => "null"
  | JSVal.str s => "\"" ++ (jsonEscape s ++ "\"")
  | JSVal.arr l =>
      "[" ++ (String.intercalate "," (l.map (fun s => "\"" ++ (jsonEscape s ++ "\""))) ++ "]")

/-- The `processValue` helper of `set_user_bio` (src/index.js lines
517-526), used for the four scalar columns: explicit `null` or the string
`"null"` clears; `undefined` falls back to `existingValue || null`
(JavaScript truthiness: the empty string is falsy); an array is
stringified; anything else is stored as supplied. -/
def processValue (value : Option JSVal) (existingValue : Option String) :
    Option String :=
  if value = some JSVal.null ∨ value = some (JSVal.str "null") then none
  else
    match value with
    | none =>
        match existingValue with
        | some s => if s = "" then none else some s
        | none => none
    | some (JSVal.arr l) => some (jsonStringify (JSVal.arr l))
    | some (JSVal.str s) => some s
    | some JSVal.null => none

/-- The inline expression `set_user_bio` uses for the four array columns
(src/index.js lines 535-546): explicit `null` or the string `"null"`
clears; any other supplied value is passed through `JSON.stringify`;
an omitted field falls back to `existing?.column || null`. -/
def processArrayField (value : Option JSVal) (existingValue : Option String) :
    Option String :=
  if value = some JSVal.null ∨ value = some (JSVal.str "null") then none
  else
    match value with
    | some v => some (jsonStringify v)
    | none =>
        match existingValue with
        | some s => if s = "" then none else some s
        | none => none

/-- Handler for the `set_user_bio` tool (src/index.js lines 509-589):
read the existing row, process each of the eight fields, then either
UPDATE in place (keeping `created_at`) or INSERT a fresh row with
`created_at = updated_at = now`. -/
def set_user_bio (state : Option BioRow) (input : BioInput) (now : String) :
    Option BioRow :=
  let nombre := processValue input.nombre (state.bind BioRow.nombre)
  let ocupacion := processValue input.ocupacion (state.bind BioRow.ocupacion)
  let ubicacion := processValue input.ubicacion (state.bind BioRow.ubicacion)
  let timezone := processValue input.timezone (state.bind BioRow.timezone)
  let tecnologias := processArrayField input.tecnologias (state.bind BioRow.tecnologias)
  let herramientas := processArrayField input.herramientas (state.bind BioRow.herramientas)
  let idiomas := processArrayField input.idiomas (state.bind BioRow.idiomas)
  let mascotas := processArrayField input.mascotas (state.bind BioRow.mascotas)
  match state with
  | some row =>
      some { row with
        nombre := nombre, ocupacion := ocupacion, ubicacion := ubicacion,
        tecnologias := tecnologias, herramientas := herramientas,
        idiomas := idiomas, timezone := timezone, mascotas := mascotas,
        updated_at := now }
  | none =>
      some { nombre := nombre, ocupacion := ocupacion, ubicacion := ubicacion,
             tecnologias := tecnologias, herramientas := herramientas,
             idiomas := idiomas, timezone := timezone, mascotas := mascotas,
             created_at := now, updated_at := now }

/-- The eight recognised biography field names (`update_user_bio`'s
`field` enum). -/
inductive BioField where
  | nombre | ocupacion | ubicacion | tecnologias
  | herramientas | idiomas | timezone | mascotas
deriving DecidableEq, Repr

/-- Write one column of the row. -/
def BioRow.setField (row : BioRow) (f : BioField) (v : Option String) : BioRow :=
  match f with
  | BioField.nombre => { row with nombre := v }
  | BioField.ocupacion => { row with ocupacion := v }
  | BioField.ubicacion => { row with ubicacion := v }
  | BioField.tecnologias => { row with tecnologias := v }
  | BioField.herramientas => { row with herramientas := v }
  | BioField.idiomas => { row with idiomas := v }
  | BioField.timezone => { row with timezone := v }
  | BioField.mascotas => { row with mascotas := v }

/-- Read one column of the row. -/
def BioRow.getField (row : BioRow) : BioField → Option String
  | BioField.nombre => row.nombre
  | BioField.ocupacion => row.ocupacion
  | BioField.ubicacion => row.ubicacion
  | BioField.tecnologias => row.tecnologias
  | BioField.herramientas => row.herramientas
  | BioField.idiomas => row.idiomas
  | BioField.timezone => row.timezone
  | BioField.mascotas => row.mascotas

/-- A `set_user_bio` argument object supplying exactly one field. -/
def BioInput.single (f : BioField) (v : JSVal) : BioInput :=
  match f with
  | BioField.nombre => { nombre := some v }
  | BioField.ocupacion => { ocupacion := some v }
  | BioField.ubicacion => { ubicacion := some v }
  | BioField.tecnologias => { tecnologias := some v }
  | BioField.herramientas => { herramientas := some v }
  | BioField.idiomas => { idiomas := some v }
  | BioField.timezone => { timezone := some v }
  | BioField.mascotas => { mascotas := some v }

/-- Whether `field` is one of `["tecnologias","herramientas","idiomas",
"mascotas"]` (src/index.js line 614). -/
def isArrayField : BioField → Bool
  | BioField.tecnologias => true
  | BioField.herramientas => true
  | BioField.idiomas => true
  | BioField.mascotas => true
  | _ => false

/-- How the SQLite binding stores a directly-supplied scalar value in
`update_user_bio` (strings verbatim, `null` as NULL). -/
def storeScalar : JSVal → Option String
  | JSVal.null => none
  | JSVal.str s => some s
  | JSVal.arr l => some (jsonStringify (JSVal.arr l))

/-- Handler for the `update_user_bio` tool (src/index.js lines 591-632):
if no row exists, return `success:false` ("No user biography exists...")
and leave the table untouched; otherwise stringify array-field values and
UPDATE the single column plus `updated_at`.  The second component of the
result is the `success` flag of the response. -/
def update_user_bio (state : Option BioRow) (field : BioField) (value : JSVal)
    (now : String) : Option BioRow × Bool :=
  match state with
  | none => (none, false)
  | some row =>
      let processedValue :=
        if isArrayField field then some (jsonStringify value) else storeScalar value
      (some { row.setField field processedValue with updated_at := now }, true)

/-!
## Helper lemmas about the memory store
-/

theorem saveUpdate_id (e : String → List ℚ) (id t md now : String)
    (m : Memory) : (saveUpdate e id t md now m).id = m.id := by
  unfold saveUpdate
  split <;> rfl

theorem saveUpdate_of_ne (e : String → List ℚ) (id t md now : String)
    (m : Memory) (h : m.id ≠ id) : saveUpdate e id t md now m = m := by
  simp [saveUpdate, h]

theorem saveUpdate_of_eq (e : String → List ℚ) (id t md now : String)
    (m : Memory) (h : m.id = id) :
    saveUpdate e id t md now m =
      { m with text := t, embedding := e t, metadata := md, updated_at := now } := by
  simp [saveUpdate, h]

/-- A fresh id is appended as a new row with `created_at = updated_at = now`. -/
theorem save_memory_insert (e : String → List ℚ) (s : Store)
    (id t md now : String) (hfresh : ∀ m ∈ s, m.id ≠ id) :
    save_memory e s id t md now =
      s ++ [{ id := id, text := t, embedding := e t, metadata := md,
              created_at := now, updated_at := now }] := by
  have h1 : s.find? (fun m => decide (m.id = id)) = none :=
    List.find?_eq_none.mpr (by intro x hx; simpa using hfresh x hx)
  rw [save_memory, h1]

/-- An existing id triggers the UPDATE branch. -/
theorem save_memory_update (e : String → List ℚ) (s : Store)
    (id t md now : String) (x : Memory) (hx : x ∈ s) (hid : x.id = id) :
    save_memory e s id t md now = s.map (saveUpdate e id t md now) := by
  rw [save_memory]
  cases h : s.find? (fun m => decide (m.id = id)) with
  | some m => rfl
  | none =>
      exact absurd (by simpa using hid) (by simpa using List.find?_eq_none.mp h x hx)

/-- Claim C1: calling `save_memory(id, text1)` on a store with no row for
`id` and then `save_memory(id, text2)` leaves exactly one row for `id`,
whose text is `text2`, whose `created_at` is the timestamp of the first
save, and whose `updated_at` is the timestamp of the second save. -/
theorem save_twice_single_row (e : String → List ℚ) (s : Store)
    (id t1 t2 md1 md2 n1 n2 : String) (hfresh : ∀ m ∈ s, m.id ≠ id) :
    (save_memory e (save_memory e s id t1 md1 n1) id t2 md2 n2).filter
        (fun m => decide (m.id = id)) =
      [{ id := id, text := t2, embedding := e t2, metadata := md2,
         created_at := n1, updated_at := n2 }] := by
  have hrow1 :
      save_memory e s id t1 md1 n1 =
        s ++ [{ id := id, text := t1, embedding := e t1, metadata := md1,
                created_at := n1, updated_at := n1 }] :=
    save_memory_insert e s id t1 md1 n1 hfresh
  have hstep2 :
      save_memory e
          (s ++ [{ id := id, text := t1, embedding := e t1, metadata := md1,
                   created_at := n1, updated_at := n1 }]) id t2 md2 n2 =
        (s ++ [({ id := id, text := t1, embedding := e t1, metadata := md1,
                  created_at := n1, updated_at := n1 } : Memory)]).map
          (saveUpdate e id t2 md2 n2) :=
    save_memory_update e _ id t2 md2 n2
      ({ id := id, text := t1, embedding := e t1, metadata := md1,
         created_at := n1, updated_at := n1 } : Memory)
      (List.mem_append_right s (List.mem_singleton.mpr rfl)) rfl
  rw [hrow1, hstep2, List.map_append, List.filter_append]
  have hmap : s.map (saveUpdate e id t2 md2 n2) = s := by
    conv_rhs => rw [← List.map_id s]
    exact List.map_congr_left
      (fun m hm => saveUpdate_of_ne e id t2 md2 n2 m (hfresh m hm))
  rw [hmap]
  have hfilter1 : s.filter (fun m => decide (m.id = id)) = [] :=
    List.filter_eq_nil_iff.mpr (by intro a ha; simpa using hfresh a ha)
  rw [hfilter1]
  simp [saveUpdate]

/-- Witness for `save_twice_single_row` at the empty store. -/
theorem save_twice_single_row_witness :
    (save_memory (fun _ => [1])
        (save_memory (fun _ => [1]) [] "x" "hello" "{}" "t1")
        "x" "world" "{}" "t2").filter (fun m => decide (m.id = "x")) =
      [{ id := "x", text := "world", embedding := [1], metadata := "{}",
         created_at := "t1", updated_at := "t2" }] :=
  save_twice_single_row (fun _ => [1]) [] "x" "hello" "world" "{}" "{}"
    "t1" "t2" (by intro m hm; cases hm)

/-- After the UPDATE branch ran, the first row found for the id carries
the new text. -/
theorem find?_map_saveUpdate (e : String → List ℚ) (id t md now : String) :
    ∀ (s : Store), (∃ x ∈ s, x.id = id) →
    ∃ r, (s.map (saveUpdate e id t md now)).find?
        (fun m => decide (m.id = id)) = some r ∧ r.text = t
  | [], hx => by simp at hx
  | a :: l, hx => by
    rw [List.map_cons, List.find?_cons]
    by_cases ha : a.id = id
    · refine ⟨saveUpdate e id t md now a, ?_, ?_⟩
      · rw [show decide ((saveUpdate e id t md now a).id = id) = true by
            simp [saveUpdate_id, ha]]
      · simp [saveUpdate, ha]
    · rw [show decide ((saveUpdate e id t md now a).id = id) = false by
          simp [saveUpdate_id, ha]]
      apply find?_map_saveUpdate e id t md now l
      obtain ⟨x, hmem, hxid⟩ := hx
      rcases List.mem_cons.mp hmem with h1 | h2
      · exact absurd (h1 ▸ hxid) ha
      · exact ⟨x, h2, hxid⟩

/-- Claim C6: for every store, id and text, `save_memory(id, text)`
followed by `get_memory(id)` returns a success result whose memory text
equals the text that was saved. -/
theorem save_then_get (e : String → List ℚ) (s : Store)
    (id t md now : String) :
    (get_memory (save_memory e s id t md now) id).success = true ∧
    ((get_memory (save_memory e s id t md now) id).memory.map Memory.text)
      = some t := by
  rw [save_memory]
  cases h : s.find? (fun m => decide (m.id = id)) with
  | some m0 =>
      have hx : ∃ x ∈ s, x.id = id :=
        ⟨m0, List.mem_of_find?_eq_some h, by simpa using List.find?_some h⟩
      obtain ⟨r, hr, hrt⟩ := find?_map_saveUpdate e id t md now s hx
      rw [get_memory, hr]
      exact ⟨rfl, by simp [hrt]⟩
  | none =>
      have h0 : s.find? (fun m => decide (m.id = id)) = none := h
      rw [get_memory, List.find?_append, h0]
      simp

/-- A concrete round trip: `save_memory("x","hello")` then
`get_memory("x")` yields text "hello". -/
theorem save_then_get_example :
    (get_memory (save_memory (fun _ => [1]) [] "x" "hello" "{}" "t1") "x").success
        = true ∧
    ((get_memory (save_memory (fun _ => [1]) [] "x" "hello" "{}" "t1") "x").memory.map
        Memory.text) = some "hello" :=
  save_then_get (fun _ => [1]) [] "x" "hello" "{}" "t1"

/-!
## The search pipeline
-/

/-- Claim C5: searching an empty store returns a success response with an
empty result list and the "No memories stored yet" indicator message, for
every query, limit and threshold. -/
theorem search_empty_store (e : String → List ℚ) (sim : List ℚ → List ℚ → ℚ)
    (q : String) (n : Int) (θ : ℚ) :
    search_memory e sim [] q n θ =
      { success := true, results := [],
        message := some "No memories stored yet" } :=
  rfl

/-- `resultLE` is total. -/
theorem resultLE_total (a b : SearchResult) :
    resultLE a b || resultLE b a := by
  simp [resultLE]
  exact le_total b.similarity a.similarity

/-- `resultLE` is transitive. -/
theorem resultLE_trans (a b c : SearchResult)
    (h1 : resultLE a b) (h2 : resultLE b c) : resultLE a c := by
  simp [resultLE] at h1 h2 ⊢
  exact le_trans h2 h1

/-- Claim C2 (amended): the results of `search_memory` are non-increasing
in similarity; the sort is stable, so the results are a prefix of the
stable sort of the candidate list, and any two candidates with equal
similarity keep their table-scan order in the sorted list (rather than
being reordered by `updated_at`). -/
theorem search_sorted_stable (e : String → List ℚ)
    (sim : List ℚ → List ℚ → ℚ) (s : Store) (q : String) (n : Int) (θ : ℚ) :
    ((search_memory e sim s q n θ).results).Pairwise
        (fun a b => b.similarity ≤ a.similarity) ∧
    List.Sublist (search_memory e sim s q n θ).results (searchSorted e sim s q θ) ∧
    (∀ r1 r2 : SearchResult, r1.similarity = r2.similarity →
      List.Sublist [r1, r2] (searchCandidates e sim s q θ) →
      List.Sublist [r1, r2] (searchSorted e sim s q θ)) := by
  refine ⟨?_, ?_, ?_⟩
  · rw [search_memory]
    split
    · simp
    · show (List.take (jsSliceLen (searchSorted e sim s q θ).length n)
          (searchSorted e sim s q θ)).Pairwise
          (fun a b => b.similarity ≤ a.similarity)
      have hsorted :
          (searchSorted e sim s q θ).Pairwise (fun a b => resultLE a b) :=
        List.sorted_mergeSort resultLE_trans resultLE_total _
      have htake :
          (List.take (jsSliceLen (searchSorted e sim s q θ).length n)
            (searchSorted e sim s q θ)).Pairwise (fun a b => resultLE a b) :=
        hsorted.sublist (List.take_sublist _ _)
      exact htake.imp (fun h => by simpa [resultLE] using h)
  · rw [search_memory]
    split
    · exact List.nil_sublist _
    · show List.Sublist (List.take (jsSliceLen (searchSorted e sim s q θ).length n)
          (searchSorted e sim s q θ)) (searchSorted e sim s q θ)
      exact List.take_sublist _ _
  · intro r1 r2 hsim hsub
    exact List.pair_sublist_mergeSort resultLE_trans resultLE_total
      (by simp [resultLE, hsim]) hsub

/-- Claim C3 (amended): for every nonnegative `n_results` the number of
results of `search_memory` is at most `n_results`. -/
theorem search_limit (e : String → List ℚ) (sim : List ℚ → List ℚ → ℚ)
    (s : Store) (q : String) (θ : ℚ) (n : Int) (h : 0 ≤ n) :
    ((search_memory e sim s q n θ).results.length : Int) ≤ n := by
  have hh : (search_memory e sim s q n θ).results.length ≤ n.toNat := by
    rw [search_memory]
    split
    · simp
    · simp only [List.length_take, jsSliceLen]
      rw [if_neg (by omega)]
      omega
  omega

/-- Witness for `search_limit`. -/
theorem search_limit_witness :
    ((search_memory (fun _ => [1]) (fun _ _ => 1) [] "q" 5 0).results.length : Int)
      ≤ 5 :=
  search_limit (fun _ => [1]) (fun _ _ => 1) [] "q" 0 5 (by decide)

/-- On the two tied sample rows the stable sort keeps table-scan order. -/
theorem searchSorted_memAB :
    searchSorted embedConst simConst [memA, memB] "q" 0 =
      [searchResultOf simConst [1] memA, searchResultOf simConst [1] memB] := by
  rw [searchSorted,
    show searchCandidates embedConst simConst [memA, memB] "q" 0 =
        [searchResultOf simConst [1] memA, searchResultOf simConst [1] memB]
      from by decide]
  exact List.mergeSort_of_sorted (by decide)

/-- Claim C2 counterexample: with two stored rows holding identical
embedding vectors (hence necessarily identical cosine scores), the two
results tie on similarity yet appear in table-scan order — updated_at
"2025-01-01..." before "2025-01-02..." — which is not updated_at-descending
order. -/
theorem search_tie_order_cex :
    ((search_memory embedConst simConst [memA, memB] "q" 5 0).results.map
        SearchResult.similarity) = [1, 1] ∧
    ((search_memory embedConst simConst [memA, memB] "q" 5 0).results.map
        SearchResult.updated_at) =
      ["2025-01-01T00:00:00Z", "2025-01-02T00:00:00Z"] ∧
    ¬ (((search_memory embedConst simConst [memA, memB] "q" 5 0).results.map
        SearchResult.updated_at).Pairwise (fun a b => b ≤ a)) := by
  have hres : (search_memory embedConst simConst [memA, memB] "q" 5 0).results =
      [searchResultOf simConst [1] memA, searchResultOf simConst [1] memB] := by
    rw [search_memory, if_neg (by decide)]
    show (searchSorted embedConst simConst [memA, memB] "q" 0).take
        (jsSliceLen (searchSorted embedConst simConst [memA, memB] "q" 0).length 5)
        = _
    rw [searchSorted_memAB]
    decide
  refine ⟨by rw [hres]; decide, by rw [hres]; decide, ?_⟩
  rw [hres,
    show ([searchResultOf simConst [1] memA,
           searchResultOf simConst [1] memB].map SearchResult.updated_at) =
        ["2025-01-01T00:00:00Z", "2025-01-02T00:00:00Z"] from by decide]
  intro h
  have h2 := List.rel_of_pairwise_cons h (List.mem_singleton.mpr rfl)
  rw [String.le_iff_toList_le] at h2
  revert h2
  decide

/-- Witness for `search_sorted_stable`: its stability clause applied to
the two concrete tied candidates. -/
theorem search_sorted_stable_witness :
    List.Sublist
      [searchResultOf simConst [1] memA, searchResultOf simConst [1] memB]
      (searchSorted embedConst simConst [memA, memB] "q" 0) :=
  (search_sorted_stable embedConst simConst [memA, memB] "q" 5 0).2.2
    (searchResultOf simConst [1] memA) (searchResultOf simConst [1] memB) rfl
    (by rw [show searchCandidates embedConst simConst [memA, memB] "q" 0 =
          [searchResultOf simConst [1] memA, searchResultOf simConst [1] memB]
        from by decide])

/-- Claim C3 counterexample: with two matching rows stored and
`n_results = -1`, JavaScript's `slice(0, -1)` drops only the last element,
so one result is returned — more than the claimed bound of `-1`. -/
theorem search_limit_negative_cex :
    (search_memory embedConst simConst [memA, memB] "q" (-1) 0).results.length
        = 1 ∧
    ¬ (((search_memory embedConst simConst [memA, memB] "q" (-1) 0).results.length
        : Int) ≤ -1) := by
  have hres : (search_memory embedConst simConst [memA, memB] "q" (-1) 0).results
      = [searchResultOf simConst [1] memA] := by
    rw [search_memory, if_neg (by decide)]
    show (searchSorted embedConst simConst [memA, memB] "q" 0).take
        (jsSliceLen (searchSorted embedConst simConst [memA, memB] "q" 0).length
          (-1)) = _
    rw [searchSorted_memAB]
    decide
  rw [hres]
  exact ⟨rfl, by decide⟩

/-- Claim C4 (amended): `search_memory` performs no validation of
`n_results` or `threshold`: it never rejects a call (the response is
always `success:true`, out-of-range arguments included), and
out-of-range values are used exactly as supplied — in particular
`n_results = 0` yields zero results, rather than being clamped into the
sane range `limit ≥ 1`. -/
theorem search_no_validation :
    (∀ (e : String → List ℚ) (sim : List ℚ → List ℚ → ℚ) (s : Store)
        (q : String) (n : Int) (θ : ℚ),
      (search_memory e sim s q n θ).success = true) ∧
    (∀ (e : String → List ℚ) (sim : List ℚ → List ℚ → ℚ) (s : Store)
        (q : String) (θ : ℚ),
      (search_memory e sim s q 0 θ).results = []) := by
  constructor
  · intro e sim s q n θ
    rw [search_memory]
    split <;> rfl
  · intro e sim s q θ
    rw [search_memory]
    split
    · rfl
    · show (searchSorted e sim s q θ).take
          (jsSliceLen (searchSorted e sim s q θ).length 0) = []
      rw [show jsSliceLen (searchSorted e sim s q θ).length 0 = 0 from by
        simp [jsSliceLen]]
      exact List.take_zero _

/-- Claim C4 counterexample: with one stored row matching the query at
threshold 0, the call with out-of-range `n_results = 0` is
neither rejected (the response succeeds) nor clamped into the sane range
`limit ≥ 1` (it returns zero results, while any clamped limit of at least
1 would return the single matching row, as the `n_results = 1` call
shows). -/
theorem search_no_validation_cex :
    (search_memory embedConst simConst [memA] "q" 0 0).success = true ∧
    (search_memory embedConst simConst [memA] "q" 0 0).results = [] ∧
    (search_memory embedConst simConst [memA] "q" 1 0).results.length
      = 1 := by
  have h1 : searchSorted embedConst simConst [memA] "q" 0 =
      [searchResultOf simConst [1] memA] := by
    rw [searchSorted,
      show searchCandidates embedConst simConst [memA] "q" 0 =
          [searchResultOf simConst [1] memA] from by decide]
    exact List.mergeSort_singleton _
  refine ⟨?_, ?_, ?_⟩
  · rw [search_memory]
    split <;> rfl
  · rw [search_memory, if_neg (by decide)]
    show (searchSorted embedConst simConst [memA] "q" 0).take
        (jsSliceLen (searchSorted embedConst simConst [memA] "q" 0).length 0)
        = []
    rw [h1]
    decide
  · rw [search_memory, if_neg (by decide)]
    show ((searchSorted embedConst simConst [memA] "q" 0).take
        (jsSliceLen (searchSorted embedConst simConst [memA] "q" 0).length 1)).length
        = 1
    rw [h1]
    decide

/-!
## The similarity engine: claims
-/

theorem dotProduct_comm (a b : List ℝ) : dotProduct a b = dotProduct b a := by
  unfold dotProduct
  rw [List.zipWith_comm_of_comm _ (fun x y => mul_comm x y)]

theorem dotProduct_self_cons (x : ℝ) (t : List ℝ) :
    dotProduct (x :: t) (x :: t) = x * x + dotProduct t t := by
  simp [dotProduct]

theorem dotProduct_self_nonneg (a : List ℝ) : 0 ≤ dotProduct a a := by
  induction a with
  | nil => simp [dotProduct]
  | cons x t ih =>
      rw [dotProduct_self_cons]
      exact add_nonneg (mul_self_nonneg x) ih

theorem dotProduct_self_pos :
    ∀ (a : List ℝ), (∃ x ∈ a, x ≠ 0) → 0 < dotProduct a a
  | [], h => by simp at h
  | y :: t, h => by
    rw [dotProduct_self_cons]
    obtain ⟨x, hx, hne⟩ := h
    rcases List.mem_cons.mp hx with h1 | h2
    · exact add_pos_of_pos_of_nonneg
        (by rw [h1] at hne; exact mul_self_pos.mpr hne)
        (dotProduct_self_nonneg t)
    · exact add_pos_of_nonneg_of_pos (mul_self_nonneg y)
        (dotProduct_self_pos t ⟨x, h2, hne⟩)

/-- Claim C9: `cosineSimilarity` is symmetric, and for a nonzero vector
the similarity with itself is exactly 1 (over the reals, the idealisation
of the floating-point arithmetic of the source). -/
theorem cosineSimilarity_symm_self_one :
    (∀ a b : List ℝ, cosineSimilarity a b = cosineSimilarity b a) ∧
    (∀ a : List ℝ, (∃ x ∈ a, x ≠ 0) → cosineSimilarity a a = 1) := by
  constructor
  · intro a b
    unfold cosineSimilarity
    rw [dotProduct_comm a b, mul_comm]
  · intro a h
    have hpos := dotProduct_self_pos a h
    unfold cosineSimilarity
    rw [Real.mul_self_sqrt hpos.le]
    exact div_self hpos.ne'

/-- Witness for `cosineSimilarity_symm_self_one` at the vector `[1]`. -/
theorem cosineSimilarity_self_one_witness :
    cosineSimilarity [(1 : ℝ)] [(1 : ℝ)] = 1 :=
  cosineSimilarity_symm_self_one.2 [(1 : ℝ)]
    ⟨1, List.mem_singleton.mpr rfl, one_ne_zero⟩

/-!
## The biography store: claims
-/

/-- Claim C8: `update_user_bio` on a nonexistent biography returns a
non-success result and neither creates a record nor writes any field. -/
theorem update_bio_no_record (field : BioField) (value : JSVal)
    (now : String) :
    update_user_bio none field value now = (none, false) :=
  rfl

theorem jsonStringify_str_ne_null (s : String) :
    jsonStringify (JSVal.str s) ≠ "null" := by
  intro h
  have hd := congrArg String.data h
  simp [jsonStringify] at hd

theorem jsonStringify_arr_ne_null (l : List String) :
    jsonStringify (JSVal.arr l) ≠ "null" := by
  intro h
  have hd := congrArg String.data h
  simp [jsonStringify] at hd

/-- `processValue` can only produce the string "null" by copying it from
the existing column. -/
theorem processValue_null_source (v : Option JSVal) (ex : Option String)
    (h : processValue v ex = some "null") : ex = some "null" := by
  match v with
  | none =>
      match ex with
      | none => simp [processValue] at h
      | some s =>
          by_cases hs : s = ""
          · simp [processValue, hs] at h
          · simpa [processValue, hs] using h
  | some JSVal.null => simp [processValue] at h
  | some (JSVal.str s) =>
      by_cases hs : s = "null"
      · simp [processValue, hs] at h
      · rw [show processValue (some (JSVal.str s)) ex = some s from by
            simp [processValue, hs]] at h
        exact absurd (Option.some_inj.mp h) hs
  | some (JSVal.arr l) =>
      rw [show processValue (some (JSVal.arr l)) ex
          = some (jsonStringify (JSVal.arr l)) from by simp [processValue]] at h
      exact absurd (Option.some_inj.mp h) (jsonStringify_arr_ne_null l)

/-- `processArrayField` can only produce the string "null" by copying it
from the existing column. -/
theorem processArrayField_null_source (v : Option JSVal) (ex : Option String)
    (h : processArrayField v ex = some "null") : ex = some "null" := by
  match v with
  | none =>
      match ex with
      | none => simp [processArrayField] at h
      | some s =>
          by_cases hs : s = ""
          · simp [processArrayField, hs] at h
          · simpa [processArrayField, hs] using h
  | some JSVal.null => simp [processArrayField] at h
  | some (JSVal.str s) =>
      by_cases hs : s = "null"
      · simp [processArrayField, hs] at h
      · rw [show processArrayField (some (JSVal.str s)) ex
            = some (jsonStringify (JSVal.str s)) from by
              simp [processArrayField, hs]] at h
        exact absurd (Option.some_inj.mp h) (jsonStringify_str_ne_null s)
  | some (JSVal.arr l) =>
      rw [show processArrayField (some (JSVal.arr l)) ex
          = some (jsonStringify (JSVal.arr l)) from by
            simp [processArrayField]] at h
      exact absurd (Option.some_inj.mp h) (jsonStringify_arr_ne_null l)

/-- Claim C10: for every biography field, a supplied value equal to the
literal string "null" is treated like an explicit null and clears the
field; consequently a `set_user_bio` call never introduces the stored
string "null" into a field that did not already hold it. -/
theorem set_user_bio_null_string :
    (∀ (f : BioField) (st : Option BioRow) (now : String),
      (set_user_bio st (BioInput.single f (JSVal.str "null")) now).bind
        (fun r => r.getField f) = none) ∧
    (∀ (st : Option BioRow) (input : BioInput) (now : String) (f : BioField),
      (set_user_bio st input now).bind (fun r => r.getField f) = some "null" →
      st.bind (fun r => r.getField f) = some "null") := by
  constructor
  · intro f st now
    cases f <;> cases st <;>
      simp [set_user_bio, BioInput.single, BioRow.getField, processValue,
        processArrayField]
  · intro st input now f
    cases f <;> cases st <;> intro h <;>
      first
      | exact processValue_null_source _ _
          (by simpa [set_user_bio, BioRow.getField] using h)
      | exact processArrayField_null_source _ _
          (by simpa [set_user_bio, BioRow.getField] using h)

/-- Witness for `set_user_bio_null_string`: its second clause applied to a
record already holding the string "null" and an empty update. -/
theorem set_user_bio_null_string_witness :
    (some { nombre := some "null", ocupacion := none, ubicacion := none,
            tecnologias := none, herramientas := none, idiomas := none,
            timezone := none, mascotas := none,
            created_at := "t0", updated_at := "t0" } : Option BioRow).bind
      (fun r => r.getField BioField.nombre) = some "null" :=
  set_user_bio_null_string.2
    (some { nombre := some "null", ocupacion := none, ubicacion := none,
            tecnologias := none, herramientas := none, idiomas := none,
            timezone := none, mascotas := none,
            created_at := "t0", updated_at := "t0" })
    ({} : BioInput) "t1" BioField.nombre (by decide)

